import Mathlib

/-!
Verification of the buy-write dashboard's dividend-projection and
scenario-return engine (src/buy_write_app_v21claude.py), shallowly embedded
in Lean.  Calendar dates are modelled as integer day numbers; pandas
timestamps that can carry fractional days (the projected dividend dates,
whose spacing is a float average interval) are modelled as rationals, with
the Timedelta .days accessor modelled as the floor of the rational
difference.  Monetary amounts and prices are rationals.
-/

namespace BuyWrite

/-- A dividend record: payment date (integer day number) and amount
(lines 27-28 of the source: the externally sourced dividend series). -/
structure DividendRecord where
  date : Int
  amount : ℚ
deriving DecidableEq, Repr

/-- Line 112 (and line 35): the trailing-12-month dividend records, those
whose date is at or after the cutoff one_year_ago. -/
def recent_divs (history : List DividendRecord) (one_year_ago : Int) : List DividendRecord :=
  history.filter (fun r => decide (one_year_ago ≤ r.date))

/-- Lines 29-36 and 51-52: the dividend frequency class.  With an empty
series the else-branch (line 52) sets it to 1; otherwise it is the count of
trailing-12-month records, floored to 1 when that count is zero (line 36). -/
def div_freq (history : List DividendRecord) (one_year_ago : Int) : Nat :=
  if history = [] then 1
  else if 0 < (recent_divs history one_year_ago).length
    then (recent_divs history one_year_ago).length else 1

/-- Lines 39 and 53: yearly dividend, the sum of trailing-12-month amounts,
zero when there are none (or when the whole series is empty). -/
def yearly_dividend (history : List DividendRecord) (one_year_ago : Int) : ℚ :=
  if history = [] then 0
  else if recent_divs history one_year_ago = [] then 0
  else ((recent_divs history one_year_ago).map (fun r => r.amount)).sum

/-- Line 116: the list of day gaps between consecutive dividend dates,
date_diffs[i] = dates[i+1] - dates[i]. -/
def date_diffs (dates : List Int) : List Int :=
  List.zipWith (fun a b => a - b) dates.tail dates

/-- Lines 114-120: the average number of days between dividend payments.
When at least two trailing-12-month dates exist, the mean of the raw gaps;
otherwise 365.25 / div_freq (with a dead guard against div_freq = 0). -/
def avg_days_between (recentDates : List Int) (freq : Nat) : ℚ :=
  if 2 ≤ recentDates.length then
    (((date_diffs recentDates).map Int.cast : List ℚ)).sum /
      ((date_diffs recentDates).length : ℚ)
  else if 0 < freq then (1461 : ℚ) / 4 / (freq : ℚ) else (1461 : ℚ) / 4

/-- Lines 127-130, fuel-indexed unfolding of the projection while-loop:
while next <= option_exp, append next and advance by the average interval.
The fuel argument only bounds the number of iterations; with the sufficient
fuel chosen below the returned list is exactly what the loop produces. -/
def projectAux (avg horizon : ℚ) : Nat → ℚ → List ℚ
  | 0, _ => []
  | fuel + 1, next =>
    if next ≤ horizon then next :: projectAux avg horizon fuel (next + avg) else []

/-- An iteration bound for the projection loop, sufficient whenever the
average interval is positive. -/
def projFuel (avg horizon start : ℚ) : Nat := (⌈(horizon - start) / avg⌉ + 1).toNat

/-- Lines 122-130: project dividend dates forward from the last known
dividend, starting at last_known_div + avg and stepping by avg while the
date stays at or before the option expiration. -/
def projected_div_dates (last_known_div avg horizon : ℚ) : List ℚ :=
  projectAux avg horizon (projFuel avg horizon (last_known_div + avg)) (last_known_div + avg)

/-- Line 133: the projected dates strictly after the purchase date and at
most the expiration. -/
def divs_in_period (today exp : ℚ) (proj : List ℚ) : List ℚ :=
  proj.filter (fun d => decide (today < d ∧ d ≤ exp))

/-- Line 134: the number of dividend payments expected during the holding
period. -/
def expected_div_payments (today exp : ℚ) (proj : List ℚ) : Nat :=
  (divs_in_period today exp proj).length

/-- Line 137: the per-payment dividend amount, yearly dividend divided by
the frequency class (with a dead guard against a zero class). -/
def single_dividend (yearly : ℚ) (freq : Nat) : ℚ :=
  if 0 < freq then yearly / (freq : ℚ) else 0

/-- Line 101: days held to expiration, floored at one day. -/
def days_held (today exp : ℚ) : Int := max ⌊exp - today⌋ 1

/-- Line 327: the what-if calculator's days held, the same formula. -/
def whatif_days_held (today whatif_exp : ℚ) : Int := max ⌊whatif_exp - today⌋ 1

/-- Line 330: the what-if calculator filters the projection left over from
the main loop by the new horizon. -/
def whatif_divs_in_period (today whatif_exp : ℚ) (proj : List ℚ) : List ℚ :=
  proj.filter (fun d => decide (today < d ∧ d ≤ whatif_exp))

/-- Line 95: option mid price, (bid + ask) / 2. -/
def option_price (bid ask : ℚ) : ℚ := (bid + ask) / 2

/-- Line 96: net debit, stock price minus option mid price. -/
def net_debit (stock_price opt_price : ℚ) : ℚ := stock_price - opt_price

/-- Line 97: option premium, strike + option price - stock price. -/
def option_premium (strike opt_price stock_price : ℚ) : ℚ :=
  strike + opt_price - stock_price

/-- One scenario's numeric output (lines 151-155 and 188-191): number of
payments, cash flow (the Dividend + Premium column), total return percent
and annualized return percent. -/
structure ScenarioResult where
  payments_received : Nat
  cash_flow : ℚ
  total_return_pct : ℚ
  annualized_return_pct : ℚ
deriving DecidableEq, Repr

/-- Lines 151-155 / 188-191, the shared scenario formulas: cash flow is
premium times shares plus single_dividend times payments times shares;
total percent divides by shares times net debit; annualized percent scales
by 365 over the days held. -/
def scenario (shares premium netDebit singleDiv : ℚ) (payments : Nat) (dh : Int) :
    ScenarioResult :=
  { payments_received := payments
    cash_flow := premium * shares + singleDiv * (payments : ℚ) * shares
    total_return_pct :=
      (premium * shares + singleDiv * (payments : ℚ) * shares) / (shares * netDebit) * 100
    annualized_return_pct :=
      (premium * shares + singleDiv * (payments : ℚ) * shares) / (shares * netDebit) * 100 *
        (365 / (dh : ℚ)) }

/-- The early-call intermediate quantities of lines 157-186. -/
structure EarlyCall where
  expected_payments_early : Nat
  divs_received_early : ℚ
  early_call_date : ℚ
  days_held_early : Int
deriving DecidableEq, Repr

/-- Lines 159-177: when at least one dividend falls in the window, assume
assignment 0 days before the last one and count only dividends strictly
before that date; otherwise the scenario degenerates to the hold day count
with zero payments and early_call_date equal to the expiration. -/
def earlyCall (today exp : ℚ) (dh : Int) (singleDiv : ℚ) (divs : List ℚ) : EarlyCall :=
  match divs.getLast? with
  | some last_div_date =>
    { expected_payments_early := (divs.filter (fun d => decide (d < last_div_date - 0))).length
      divs_received_early :=
        singleDiv * ((divs.filter (fun d => decide (d < last_div_date - 0))).length : ℚ)
      early_call_date := last_div_date - 0
      days_held_early := max ⌊(last_div_date - 0) - today⌋ 1 }
  | none =>
    { expected_payments_early := 0
      divs_received_early := 0
      early_call_date := exp
      days_held_early := dh }

/-- Lines 151-155: the hold scenario of one candidate. -/
def holdScenario (shares premium netDebit singleDiv today exp : ℚ) (proj : List ℚ) :
    ScenarioResult :=
  scenario shares premium netDebit singleDiv (expected_div_payments today exp proj)
    (days_held today exp)

/-- Lines 157-191: the called-early scenario of one candidate. -/
def earlyScenario (shares premium netDebit singleDiv today exp : ℚ) (proj : List ℚ) :
    ScenarioResult :=
  scenario shares premium netDebit singleDiv
    (earlyCall today exp (days_held today exp) singleDiv (divs_in_period today exp proj)).expected_payments_early
    (earlyCall today exp (days_held today exp) singleDiv (divs_in_period today exp proj)).days_held_early

/-- One evaluation row's scenario-relevant fields (lines 197-221). -/
structure EvaluationRow where
  option_premium : ℚ
  hold : ScenarioResult
  early : ScenarioResult
deriving DecidableEq, Repr

/-- Lines 95-97 and 151-191: assemble one evaluation row from a quote. -/
def mkEvaluationRow (shares stock_price strike bid ask today exp : ℚ)
    (proj : List ℚ) (singleDiv : ℚ) : EvaluationRow :=
  { option_premium := option_premium strike (option_price bid ask) stock_price
    hold := holdScenario shares (option_premium strike (option_price bid ask) stock_price)
      (net_debit stock_price (option_price bid ask)) singleDiv today exp proj
    early := earlyScenario shares (option_premium strike (option_price bid ask) stock_price)
      (net_debit stock_price (option_price bid ask)) singleDiv today exp proj }

/-- Lines 235-239: the Meet Criteria column. -/
def meet_criteria (row : EvaluationRow) : Bool :=
  decide (0 < row.option_premium) && decide (10 < row.hold.total_return_pct) &&
    decide (10 < row.hold.annualized_return_pct)

/-- The what-if calculator's row (lines 319-357), scenario-relevant fields. -/
structure WhatifRow where
  option_premium : ℚ
  expected_payments : Nat
  hold_total : ℚ
  hold_pct : ℚ
  hold_ann : ℚ
  early_payments : Nat
  early_total : ℚ
  early_pct : ℚ
  early_ann : ℚ
deriving DecidableEq, Repr

/-- Lines 319-357: the what-if computation, reusing the projection left
over from the main loop, filtered by the what-if horizon. -/
def mkWhatifRow (shares wsp wstrike wopt today wexp : ℚ) (proj : List ℚ)
    (singleDiv : ℚ) : WhatifRow :=
  { option_premium := wstrike + wopt - wsp
    expected_payments := (whatif_divs_in_period today wexp proj).length
    hold_total := (wstrike + wopt - wsp) * shares +
      singleDiv * ((whatif_divs_in_period today wexp proj).length : ℚ) * shares
    hold_pct := ((wstrike + wopt - wsp) * shares +
      singleDiv * ((whatif_divs_in_period today wexp proj).length : ℚ) * shares) /
        (shares * (wsp - wopt)) * 100
    hold_ann := ((wstrike + wopt - wsp) * shares +
      singleDiv * ((whatif_divs_in_period today wexp proj).length : ℚ) * shares) /
        (shares * (wsp - wopt)) * 100 * (365 / (whatif_days_held today wexp : ℚ))
    early_payments :=
      (earlyCall today wexp (whatif_days_held today wexp) singleDiv
        (whatif_divs_in_period today wexp proj)).expected_payments_early
    early_total := (wstrike + wopt - wsp) * shares +
      singleDiv * (((earlyCall today wexp (whatif_days_held today wexp) singleDiv
        (whatif_divs_in_period today wexp proj)).expected_payments_early : ℚ)) * shares
    early_pct := ((wstrike + wopt - wsp) * shares +
      singleDiv * (((earlyCall today wexp (whatif_days_held today wexp) singleDiv
        (whatif_divs_in_period today wexp proj)).expected_payments_early : ℚ)) * shares) /
        (shares * (wsp - wopt)) * 100
    early_ann := ((wstrike + wopt - wsp) * shares +
      singleDiv * (((earlyCall today wexp (whatif_days_held today wexp) singleDiv
        (whatif_divs_in_period today wexp proj)).expected_payments_early : ℚ)) * shares) /
        (shares * (wsp - wopt)) * 100 *
          (365 / ((earlyCall today wexp (whatif_days_held today wexp) singleDiv
            (whatif_divs_in_period today wexp proj)).days_held_early : ℚ)) }

/-- Line 357: the what-if criteria check. -/
def whatif_meets_criteria (r : WhatifRow) : Bool :=
  decide (0 < r.option_premium) && decide (10 < r.hold_pct) && decide (10 < r.hold_ann)

/-- Lines 64-68: keep expirations whose day distance from the purchase date
lies between 6*30 and 18*30 inclusive. -/
def filtered_exps (today : ℚ) (available : List ℚ) : List ℚ :=
  available.filter (fun e => decide (6 * 30 ≤ ⌊e - today⌋ ∧ ⌊e - today⌋ ≤ 18 * 30))

/-- Lines 87-89: keep strikes between 0.6 and 0.9 times the stock price
inclusive. -/
def strike_filter (stock_price : ℚ) (strikes : List ℚ) : List ℚ :=
  strikes.filter (fun s =>
    decide (stock_price * (6 / 10) ≤ s ∧ s ≤ stock_price * (9 / 10)))

/-- The cadence-stage variables of lines 28-54.  In the Python source
one_year_ago is assigned only inside the nonempty-history branch (line 34);
reading it later when it was never assigned raises NameError, which is
modelled by the none value. -/
structure CadenceState where
  div_freq : Nat
  yearly_dividend : ℚ
  one_year_ago : Option Int
deriving DecidableEq, Repr

/-- Lines 28-54: the cadence stage.  The nonempty branch records the cutoff
it computed; the empty branch (lines 51-54) sets the fallbacks but leaves
one_year_ago unassigned. -/
def cadenceState (history : List DividendRecord) (oya : Int) : CadenceState :=
  if history = [] then
    { div_freq := 1, yearly_dividend := 0, one_year_ago := none }
  else
    { div_freq := div_freq history oya
      yearly_dividend := yearly_dividend history oya
      one_year_ago := some oya }

/-- Line 123: the maximum of the dividend series index, NaT (none) when the
series is empty. -/
def maxDate (history : List DividendRecord) : Option Int :=
  (history.map (fun r => r.date)).max?

/-- Lines 109-130, the per-expiration projection as executed: line 112
reads one_year_ago and line 123 takes the series maximum; when the history
is empty the former is an unassigned name (NameError) and the latter NaT,
so the computation fails, modelled by returning none. -/
def evalProjection (st : CadenceState) (history : List DividendRecord) (horizon : ℚ) :
    Option (List ℚ) := do
  let oya ← st.one_year_ago
  let last_known ← maxDate history
  let recentDates := (recent_divs history oya).map (fun r => r.date)
  some (projected_div_dates (last_known : ℚ) (avg_days_between recentDates st.div_freq) horizon)

/-- The days-from-civil-date conversion (proleptic Gregorian calendar),
used only to state the concrete end-to-end example in calendar terms. -/
def dayNumber (y m d : Int) : Int :=
  let y2 := if m ≤ 2 then y - 1 else y
  let era := (if 0 ≤ y2 then y2 else y2 - 399) / 400
  let yoe := y2 - era * 400
  let doy := (153 * ((m + 9) % 12) + 2) / 5 + d - 1
  let doe := yoe * 365 + yoe / 4 - yoe / 100 + doy
  era * 146097 + doe - 719468

/-! Helper lemmas about the projection loop and the cadence estimator. -/

/-- Every element the projection loop emits lies between the current
iterate and the horizon (the interval advance is nonnegative). -/
lemma mem_projectAux_bounds {avg horizon : ℚ} (havg : 0 ≤ avg) (fuel : Nat) :
    ∀ next d : ℚ, d ∈ projectAux avg horizon fuel next → next ≤ d ∧ d ≤ horizon := by
  induction fuel with
  | zero => intro next d h; simp [projectAux] at h
  | succ f ih =>
    intro next d h
    simp only [projectAux] at h
    by_cases hn : next ≤ horizon
    · rw [if_pos hn] at h
      rcases List.mem_cons.mp h with rfl | h2
      · exact ⟨le_refl d, hn⟩
      · obtain ⟨h1, h2h⟩ := ih (next + avg) d h2
        exact ⟨by linarith, h2h⟩
    · rw [if_neg hn] at h
      simp at h

/-- With a positive advance the emitted list is strictly increasing. -/
lemma pairwise_projectAux {avg horizon : ℚ} (havg : 0 < avg) (fuel : Nat) :
    ∀ next : ℚ, (projectAux avg horizon fuel next).Pairwise (· < ·) := by
  induction fuel with
  | zero => intro next; simp [projectAux]
  | succ f ih =>
    intro next
    simp only [projectAux]
    by_cases hn : next ≤ horizon
    · rw [if_pos hn]
      refine List.pairwise_cons.mpr ⟨?_, ih (next + avg)⟩
      intro b hb
      have hbb := mem_projectAux_bounds (le_of_lt havg) f (next + avg) b hb
      linarith [hbb.1]
    · rw [if_neg hn]
      exact List.Pairwise.nil

/-- Two sufficient fuel bounds yield the same list: once the fuel times the
advance overshoots the horizon, adding fuel no longer changes the output. -/
lemma projectAux_fuel_congr {avg horizon : ℚ} (havg : 0 < avg) (f1 : Nat) :
    ∀ (f2 : Nat) (next : ℚ), horizon < next + (f1 : ℚ) * avg →
      horizon < next + (f2 : ℚ) * avg →
      projectAux avg horizon f1 next = projectAux avg horizon f2 next := by
  induction f1 with
  | zero =>
    intro f2 next h1 h2
    cases f2 with
    | zero => rfl
    | succ g =>
      simp only [projectAux]
      rw [if_neg]
      push_cast at h1
      linarith
  | succ f ih =>
    intro f2 next h1 h2
    cases f2 with
    | zero =>
      simp only [projectAux]
      rw [if_neg]
      push_cast at h2
      linarith
    | succ g =>
      simp only [projectAux]
      by_cases hn : next ≤ horizon
      · rw [if_pos hn, if_pos hn]
        have e1 : horizon < (next + avg) + (f : ℚ) * avg := by push_cast at h1; linarith
        have e2 : horizon < (next + avg) + (g : ℚ) * avg := by push_cast at h2; linarith
        rw [ih g (next + avg) e1 e2]
      · rw [if_neg hn, if_neg hn]

/-- The fuel bound chosen for the projection is sufficient. -/
lemma projFuel_suff {avg : ℚ} (havg : 0 < avg) (horizon start : ℚ) :
    horizon < start + (projFuel avg horizon start : ℚ) * avg := by
  unfold projFuel
  have h1 : (horizon - start) / avg ≤ (⌈(horizon - start) / avg⌉ : ℚ) := Int.le_ceil _
  have h2 : (⌈(horizon - start) / avg⌉ + 1 : ℤ) ≤ (((⌈(horizon - start) / avg⌉ + 1).toNat : ℤ)) :=
    Int.self_le_toNat _
  have h3 : ((⌈(horizon - start) / avg⌉ : ℚ) + 1) ≤ (((⌈(horizon - start) / avg⌉ + 1).toNat : Nat) : ℚ) := by
    exact_mod_cast h2
  have h4 : (horizon - start) / avg < (((⌈(horizon - start) / avg⌉ + 1).toNat : Nat) : ℚ) := by
    linarith
  have h5 := mul_lt_mul_of_pos_right h4 havg
  rw [div_mul_cancel₀ _ (ne_of_gt havg)] at h5
  linarith

/-- Filtering a projection made for a farther horizon by a window bounded
at a nearer horizon gives the same result as filtering the projection made
for the nearer horizon itself. -/
lemma filter_projectAux_le {avg today E E2 : ℚ} (havg : 0 ≤ avg) (hE : E ≤ E2) (fuel : Nat) :
    ∀ next : ℚ,
      (projectAux avg E2 fuel next).filter (fun d => decide (today < d ∧ d ≤ E)) =
        (projectAux avg E fuel next).filter (fun d => decide (today < d ∧ d ≤ E)) := by
  induction fuel with
  | zero => intro next; simp [projectAux]
  | succ f ih =>
    intro next
    simp only [projectAux]
    by_cases hnE : next ≤ E
    · rw [if_pos (le_trans hnE hE), if_pos hnE]
      simp only [List.filter_cons]
      rw [ih (next + avg)]
    · by_cases hnE2 : next ≤ E2
      · rw [if_pos hnE2, if_neg hnE]
        simp only [List.filter_nil]
        rw [List.filter_cons_of_neg]
        · rw [List.filter_eq_nil_iff.mpr]
          intro d hd
          have hb := mem_projectAux_bounds havg f (next + avg) d hd
          simp only [decide_eq_true_eq, not_and, not_le]
          intro htd
          by_contra hcon
          push_neg at hcon
          exact hnE (le_trans (by linarith [hb.1]) hcon)
        · simp only [decide_eq_true_eq, not_and, not_le]
          intro htd
          by_contra hcon
          push_neg at hcon
          exact hnE hcon
      · rw [if_neg hnE2, if_neg hnE]

/-- Consecutive gaps of a strictly increasing integer list are at least 1. -/
lemma one_le_mem_date_diffs : ∀ {dates : List Int}, dates.Pairwise (· < ·) →
    ∀ x ∈ date_diffs dates, 1 ≤ x := by
  intro dates
  induction dates with
  | nil => intro _ x hx; simp [date_diffs] at hx
  | cons a t ih =>
    intro h x hx
    cases t with
    | nil => simp [date_diffs] at hx
    | cons b t2 =>
      have hd : date_diffs (a :: b :: t2) = (b - a) :: date_diffs (b :: t2) := rfl
      rw [hd] at hx
      rcases List.mem_cons.mp hx with rfl | hx2
      · have hab : a < b := (List.pairwise_cons.mp h).1 b (by simp)
        omega
      · exact ih (List.pairwise_cons.mp h).2 x hx2

/-- The gap list of a list of length at least two is nonempty. -/
lemma date_diffs_ne_nil {dates : List Int} (h : 2 ≤ dates.length) :
    date_diffs dates ≠ [] := by
  have hlen : (date_diffs dates).length = min dates.tail.length dates.length := by
    simp [date_diffs, List.length_zipWith]
  intro hnil
  rw [hnil] at hlen
  simp [List.length_tail] at hlen
  omega

/-- A nonempty list of rationals, each at least one, has positive sum. -/
lemma sum_map_pos_of_one_le : ∀ (l : List Int), (∀ x ∈ l, 1 ≤ x) → l ≠ [] →
    0 < ((l.map Int.cast : List ℚ)).sum := by
  intro l
  induction l with
  | nil => intro _ hne; exact absurd rfl hne
  | cons a t ih =>
    intro h _
    rw [List.map_cons, List.sum_cons]
    have ha : (1 : ℚ) ≤ (a : ℚ) := by exact_mod_cast h a (by simp)
    cases t with
    | nil =>
      simp only [List.map_nil, List.sum_nil, add_zero]
      linarith
    | cons b t2 =>
      have ht : 0 < (((b :: t2).map Int.cast : List ℚ)).sum :=
        ih (fun x hx => h x (by simp [hx])) (by simp)
      linarith

/-- The cadence estimator's average interval is positive in every branch,
for any strictly increasing trailing-12-month date list and any frequency
class. -/
lemma avg_days_between_pos {recentDates : List Int} (freq : Nat)
    (h : recentDates.Pairwise (· < ·)) : 0 < avg_days_between recentDates freq := by
  unfold avg_days_between
  by_cases h2 : 2 ≤ recentDates.length
  · rw [if_pos h2]
    apply div_pos
    · exact sum_map_pos_of_one_le _ (one_le_mem_date_diffs h) (date_diffs_ne_nil h2)
    · have hne := date_diffs_ne_nil h2
      have : 0 < (date_diffs recentDates).length := List.length_pos.mpr hne
      exact_mod_cast this
  · rw [if_neg h2]
    by_cases hf : 0 < freq
    · rw [if_pos hf]
      apply div_pos
      · norm_num
      · exact_mod_cast hf
    · rw [if_neg hf]
      norm_num

/-- Filtering a strictly increasing list by the values strictly below its
last element removes exactly that last element. -/
lemma length_filter_lt_getLast : ∀ {l : List ℚ}, l.Pairwise (· < ·) →
    ∀ {m : ℚ}, l.getLast? = some m →
      (l.filter (fun d => decide (d < m))).length = l.length - 1 := by
  intro l
  induction l with
  | nil => intro _ m hm; simp at hm
  | cons a t ih =>
    intro h m hm
    cases t with
    | nil =>
      simp only [List.getLast?_singleton, Option.some.injEq] at hm
      subst hm
      simp
    | cons b t2 =>
      have hm2 : (b :: t2).getLast? = some m := by
        rw [List.getLast?_cons_cons] at hm
        exact hm
      have hmem : m ∈ b :: t2 := by
        obtain ⟨hne, heq⟩ := List.mem_getLast?_eq_getLast hm2
        rw [heq]
        exact List.getLast_mem hne
      have ham : a < m := (List.pairwise_cons.mp h).1 m hmem
      rw [List.filter_cons_of_pos (by simpa using ham)]
      simp only [List.length_cons]
      rw [ih (List.pairwise_cons.mp h).2 hm2]
      simp

/-- In a sorted list, every member is at most the last element. -/
lemma le_getLast_of_sorted : ∀ {l : List ℚ}, l.Pairwise (· ≤ ·) →
    ∀ {x m : ℚ}, x ∈ l → l.getLast? = some m → x ≤ m := by
  intro l
  induction l with
  | nil => intro _ x m hx; simp at hx
  | cons a t ih =>
    intro h x m hx hm
    cases t with
    | nil =>
      simp only [List.getLast?_singleton, Option.some.injEq] at hm
      simp only [List.mem_singleton] at hx
      subst hm hx
      exact le_refl x
    | cons b t2 =>
      have hm2 : (b :: t2).getLast? = some m := by
        rw [List.getLast?_cons_cons] at hm
        exact hm
      rcases List.mem_cons.mp hx with rfl | hx2
      · have hmem : m ∈ b :: t2 := by
          obtain ⟨hne, heq⟩ := List.mem_getLast?_eq_getLast hm2
          rw [heq]
          exact List.getLast_mem hne
        exact (List.pairwise_cons.mp h).1 m hmem
      · exact ih (List.pairwise_cons.mp h).2 hx2 hm2

/-- One-step unfolding of the projection in terms of itself: the projected
list starts at last_known + avg when that is within the horizon, and the
rest is the projection restarted from that date. -/
lemma projected_div_dates_step {lk avg horizon : ℚ} (havg : 0 < avg) :
    projected_div_dates lk avg horizon =
      if lk + avg ≤ horizon then (lk + avg) :: projected_div_dates (lk + avg) avg horizon
      else [] := by
  by_cases h : lk + avg ≤ horizon
  · rw [if_pos h]
    unfold projected_div_dates
    obtain ⟨g, hg⟩ : ∃ g, projFuel avg horizon (lk + avg) = g + 1 := by
      have h0 : (0 : ℚ) ≤ (horizon - (lk + avg)) / avg :=
        div_nonneg (by linarith) (le_of_lt havg)
      have h1 : (0 : ℤ) ≤ ⌈(horizon - (lk + avg)) / avg⌉ := Int.ceil_nonneg h0
      unfold projFuel
      exact ⟨(⌈(horizon - (lk + avg)) / avg⌉).toNat, by omega⟩
    rw [hg]
    simp only [projectAux]
    rw [if_pos h]
    congr 1
    apply projectAux_fuel_congr havg
    · have hs := projFuel_suff havg horizon (lk + avg)
      rw [hg] at hs
      push_cast at hs ⊢
      linarith
    · exact projFuel_suff havg horizon _
  · rw [if_neg h]
    unfold projected_div_dates
    cases hf : projFuel avg horizon (lk + avg) with
    | zero => simp [projectAux]
    | succ g =>
      simp only [projectAux]
      rw [if_neg h]

/-- Evaluation of the cadence estimator on the concrete quarterly history
used by the witnesses: two records 91 days apart give a 91-day interval. -/
lemma avg_days_between_ex : avg_days_between [0, 91] 4 = 91 := by
  norm_num [avg_days_between, date_diffs]

/-- Evaluation of the projection from day 0 with a 91-day interval up to a
274-day horizon. -/
lemma projected_ex_274 : projected_div_dates 0 91 274 = [91, 182, 273] := by
  rw [projected_div_dates_step (by norm_num)]
  norm_num
  rw [projected_div_dates_step (by norm_num)]
  norm_num
  rw [projected_div_dates_step (by norm_num)]
  norm_num
  rw [projected_div_dates_step (by norm_num)]
  norm_num

/-- Evaluation of the projection from day 0 with a 91-day interval up to a
365-day horizon. -/
lemma projected_ex_365 : projected_div_dates 0 91 365 = [91, 182, 273, 364] := by
  rw [projected_div_dates_step (by norm_num)]
  norm_num
  rw [projected_div_dates_step (by norm_num)]
  norm_num
  rw [projected_div_dates_step (by norm_num)]
  norm_num
  rw [projected_div_dates_step (by norm_num)]
  norm_num
  rw [projected_div_dates_step (by norm_num)]
  norm_num

/-! Claim theorems. -/

/-- C1: with an empty dividend history the cadence stage does set
frequency_class 1 and yearly dividend 0 as claimed, but the per-expiration
projection then reads the never-assigned one_year_ago (Python NameError at
line 112) and the NaT maximum of the empty series (line 123), so the
evaluation fails instead of running all downstream scenario computations:
the no-failure part of the claim is violated by the code. -/
theorem C1_empty_history_evaluation_fails :
    (cadenceState [] 0).div_freq = 1 ∧ (cadenceState [] 0).yearly_dividend = 0 ∧
    evalProjection (cadenceState [] 0) [] 274 = none := by
  refine ⟨by decide, by decide, by decide⟩

/-- C3: for every strictly increasing trailing-12-month date list, every
frequency class, every last known payment date and every horizon, the
projected dividend sequence is strictly increasing, every element is at
most the horizon, and every element is strictly after the last known date. -/
theorem C3_projection_bounds (recentDates : List Int) (freq : Nat) (lk horizon : ℚ)
    (h : recentDates.Pairwise (· < ·)) :
    (projected_div_dates lk (avg_days_between recentDates freq) horizon).Pairwise (· < ·) ∧
    ∀ d ∈ projected_div_dates lk (avg_days_between recentDates freq) horizon,
      lk < d ∧ d ≤ horizon := by
  have havg := avg_days_between_pos freq h
  constructor
  · exact pairwise_projectAux havg _ _
  · intro d hd
    have hb := mem_projectAux_bounds (le_of_lt havg) _ _ d hd
    exact ⟨by linarith [hb.1], hb.2⟩

/-- Witness for C3 at a concrete quarterly history and a 274-day horizon. -/
theorem C3_projection_bounds_witness :
    (([0, 91] : List Int).Pairwise (· < ·)) ∧
    (projected_div_dates 0 (avg_days_between [0, 91] 4) 274).Pairwise (· < ·) ∧
    ∀ d ∈ projected_div_dates 0 (avg_days_between [0, 91] 4) 274, 0 < d ∧ d ≤ 274 :=
  ⟨by decide, (C3_projection_bounds [0, 91] 4 0 274 (by decide)).1,
    (C3_projection_bounds [0, 91] 4 0 274 (by decide)).2⟩

/-- C4: with zero projected dividends strictly after the purchase date and
at most the expiration, the called-early scenario equals the hold scenario
in every field, the hold payment count is zero, the early call date is
taken to be the expiration and the early day count equals days_held. -/
theorem C4_no_dividend_early_equals_hold
    (shares premium netDebit singleDiv today exp : ℚ) (proj : List ℚ)
    (h : divs_in_period today exp proj = []) :
    earlyScenario shares premium netDebit singleDiv today exp proj =
      holdScenario shares premium netDebit singleDiv today exp proj ∧
    (holdScenario shares premium netDebit singleDiv today exp proj).payments_received = 0 ∧
    (earlyCall today exp (days_held today exp) singleDiv
        (divs_in_period today exp proj)).early_call_date = exp ∧
    (earlyCall today exp (days_held today exp) singleDiv
        (divs_in_period today exp proj)).days_held_early = days_held today exp := by
  unfold earlyScenario holdScenario expected_div_payments
  rw [h]
  simp [earlyCall, scenario]

/-- Witness for C4 at a projection whose single date lies past the
expiration, so no dividend falls in the window. -/
theorem C4_no_dividend_early_equals_hold_witness :
    divs_in_period 0 274 [300] = [] ∧
    earlyScenario 1 5 70 (4 / 5) 0 274 [300] = holdScenario 1 5 70 (4 / 5) 0 274 [300] :=
  ⟨by decide, (C4_no_dividend_early_equals_hold 1 5 70 (4 / 5) 0 274 [300] (by decide)).1⟩

/-- C5: with at least one projected dividend in-window, the called-early
payment count is exactly one less than the hold payment count (the
dividend on the assumed assignment date is never counted) and the early
day count is at most the hold day count. -/
theorem C5_early_one_less (recentDates : List Int) (freq : Nat)
    (shares premium netDebit singleDiv lk today exp : ℚ)
    (hinc : recentDates.Pairwise (· < ·))
    (hne : divs_in_period today exp
      (projected_div_dates lk (avg_days_between recentDates freq) exp) ≠ []) :
    (earlyScenario shares premium netDebit singleDiv today exp
        (projected_div_dates lk (avg_days_between recentDates freq) exp)).payments_received + 1 =
      (holdScenario shares premium netDebit singleDiv today exp
        (projected_div_dates lk (avg_days_between recentDates freq) exp)).payments_received ∧
    (earlyCall today exp (days_held today exp) singleDiv
        (divs_in_period today exp
          (projected_div_dates lk (avg_days_between recentDates freq) exp))).days_held_early ≤
      days_held today exp := by
  have havg := avg_days_between_pos freq hinc
  have hpw : (divs_in_period today exp
      (projected_div_dates lk (avg_days_between recentDates freq) exp)).Pairwise (· < ·) :=
    List.Pairwise.filter _ (pairwise_projectAux havg _ _)
  have hgl := List.getLast?_eq_getLast_of_ne_nil hne
  have hmem : (divs_in_period today exp
      (projected_div_dates lk (avg_days_between recentDates freq) exp)).getLast hne ∈
      divs_in_period today exp
        (projected_div_dates lk (avg_days_between recentDates freq) exp) :=
    List.getLast_mem hne
  have hlen : 0 < (divs_in_period today exp
      (projected_div_dates lk (avg_days_between recentDates freq) exp)).length :=
    List.length_pos.mpr hne
  constructor
  · unfold earlyScenario holdScenario expected_div_payments
    simp only [scenario]
    rw [earlyCall, hgl]
    simp only [sub_zero]
    rw [length_filter_lt_getLast hpw hgl]
    omega
  · rw [earlyCall, hgl]
    simp only [sub_zero]
    have hle : (divs_in_period today exp
        (projected_div_dates lk (avg_days_between recentDates freq) exp)).getLast hne ≤ exp := by
      have hf := List.of_mem_filter hmem
      simp only [decide_eq_true_eq] at hf
      exact hf.2
    unfold days_held
    exact max_le_max (Int.floor_le_floor (by linarith)) (le_refl 1)

/-- Witness for C5 at the concrete quarterly example, where three dividends
fall in the window and the early scenario counts two. -/
theorem C5_early_one_less_witness :
    divs_in_period 0 274 (projected_div_dates 0 (avg_days_between [0, 91] 4) 274) ≠ [] ∧
    (earlyScenario 1 5 70 (4 / 5) 0 274
        (projected_div_dates 0 (avg_days_between [0, 91] 4) 274)).payments_received + 1 =
      (holdScenario 1 5 70 (4 / 5) 0 274
        (projected_div_dates 0 (avg_days_between [0, 91] 4) 274)).payments_received ∧
    (earlyCall 0 274 (days_held 0 274) (4 / 5)
        (divs_in_period 0 274
          (projected_div_dates 0 (avg_days_between [0, 91] 4) 274))).days_held_early ≤
      days_held 0 274 :=
  ⟨by rw [avg_days_between_ex, projected_ex_274]; decide,
    (C5_early_one_less [0, 91] 4 1 5 70 (4 / 5) 0 0 274 (by decide)
      (by rw [avg_days_between_ex, projected_ex_274]; decide)).1,
    (C5_early_one_less [0, 91] 4 1 5 70 (4 / 5) 0 0 274 (by decide)
      (by rw [avg_days_between_ex, projected_ex_274]; decide)).2⟩

/-- C2: for a candidate processed by the main loop (whose expirations come
in ascending order, the projection left over for the what-if path being the
one made for the last of them), a what-if evaluation with the same
expiration yields the same hold-scenario payment count: filtering the
leftover projection by the new horizon matches the candidate's own
in-window dividend list in length. -/
theorem C2_whatif_same_hold_payments (recentDates : List Int) (freq : Nat)
    (lk today E E2 : ℚ) (exps : List ℚ)
    (hinc : recentDates.Pairwise (· < ·))
    (hsorted : exps.Pairwise (· ≤ ·)) (hmem : E ∈ exps)
    (hlast : exps.getLast? = some E2) :
    (whatif_divs_in_period today E
        (projected_div_dates lk (avg_days_between recentDates freq) E2)).length =
      expected_div_payments today E
        (projected_div_dates lk (avg_days_between recentDates freq) E) := by
  have havg := avg_days_between_pos freq hinc
  have hEE2 : E ≤ E2 := le_getLast_of_sorted hsorted hmem hlast
  unfold whatif_divs_in_period expected_div_payments divs_in_period projected_div_dates
  rw [filter_projectAux_le (le_of_lt havg) hEE2]
  rw [projectAux_fuel_congr havg _ _ _
    (lt_of_le_of_lt hEE2 (projFuel_suff havg E2 _)) (projFuel_suff havg E _)]

/-- Witness for C2: the loop processes expirations 274 and 365; the what-if
at horizon 274 over the projection left over from horizon 365 counts the
same three payments as the 274-candidate itself. -/
theorem C2_whatif_same_hold_payments_witness :
    ([274, 365] : List ℚ).Pairwise (· ≤ ·) ∧ (274 : ℚ) ∈ ([274, 365] : List ℚ) ∧
    ([274, 365] : List ℚ).getLast? = some 365 ∧
    (whatif_divs_in_period 0 274
        (projected_div_dates 0 (avg_days_between [0, 91] 4) 365)).length =
      expected_div_payments 0 274 (projected_div_dates 0 (avg_days_between [0, 91] 4) 274) :=
  ⟨by decide, by decide, by decide,
    C2_whatif_same_hold_payments [0, 91] 4 0 0 274 365 [274, 365]
      (by decide) (by decide) (by decide) (by decide)⟩

/-- C6: the end-to-end example: from last known dividend 2023-12-15 with a
91-day average interval and horizon 2024-10-01, the projection yields
2024-03-15, 2024-06-14 and 2024-09-13; all three fall after purchase date
2024-01-01 and within the horizon, days_held is 274, the single dividend of
a 3.20 yearly total at frequency 4 is 0.80, the hold cash flow per share is
the option premium plus 3 times 0.80, and the annualized return is the
total return times 365 over 274. -/
theorem C6_end_to_end_example :
    projected_div_dates ((dayNumber 2023 12 15 : Int) : ℚ) 91 ((dayNumber 2024 10 1 : Int) : ℚ) =
      [((dayNumber 2024 3 15 : Int) : ℚ), ((dayNumber 2024 6 14 : Int) : ℚ),
        ((dayNumber 2024 9 13 : Int) : ℚ)] ∧
    expected_div_payments ((dayNumber 2024 1 1 : Int) : ℚ) ((dayNumber 2024 10 1 : Int) : ℚ)
      (projected_div_dates ((dayNumber 2023 12 15 : Int) : ℚ) 91
        ((dayNumber 2024 10 1 : Int) : ℚ)) = 3 ∧
    days_held ((dayNumber 2024 1 1 : Int) : ℚ) ((dayNumber 2024 10 1 : Int) : ℚ) = 274 ∧
    single_dividend (16 / 5) 4 = 4 / 5 ∧
    ∀ premium netDebit : ℚ,
      (holdScenario 1 premium netDebit (single_dividend (16 / 5) 4)
          ((dayNumber 2024 1 1 : Int) : ℚ) ((dayNumber 2024 10 1 : Int) : ℚ)
          (projected_div_dates ((dayNumber 2023 12 15 : Int) : ℚ) 91
            ((dayNumber 2024 10 1 : Int) : ℚ))).cash_flow = premium + 3 * (4 / 5) ∧
      (holdScenario 1 premium netDebit (single_dividend (16 / 5) 4)
          ((dayNumber 2024 1 1 : Int) : ℚ) ((dayNumber 2024 10 1 : Int) : ℚ)
          (projected_div_dates ((dayNumber 2023 12 15 : Int) : ℚ) 91
            ((dayNumber 2024 10 1 : Int) : ℚ))).annualized_return_pct =
        (holdScenario 1 premium netDebit (single_dividend (16 / 5) 4)
          ((dayNumber 2024 1 1 : Int) : ℚ) ((dayNumber 2024 10 1 : Int) : ℚ)
          (projected_div_dates ((dayNumber 2023 12 15 : Int) : ℚ) 91
            ((dayNumber 2024 10 1 : Int) : ℚ))).total_return_pct * 365 / 274 := by
  have e1 : dayNumber 2023 12 15 = 19706 := by decide
  have e2 : dayNumber 2024 1 1 = 19723 := by decide
  have e3 : dayNumber 2024 10 1 = 19997 := by decide
  have e4 : dayNumber 2024 3 15 = 19797 := by decide
  have e5 : dayNumber 2024 6 14 = 19888 := by decide
  have e6 : dayNumber 2024 9 13 = 19979 := by decide
  rw [e1, e2, e3, e4, e5, e6]
  push_cast
  have hp : projected_div_dates 19706 91 19997 = [19797, 19888, 19979] := by
    rw [projected_div_dates_step (by norm_num)]
    norm_num
    rw [projected_div_dates_step (by norm_num)]
    norm_num
    rw [projected_div_dates_step (by norm_num)]
    norm_num
    rw [projected_div_dates_step (by norm_num)]
    norm_num
  have hexp : expected_div_payments 19723 19997 [19797, 19888, 19979] = 3 := by decide
  have hfl : ⌊(19997 : ℚ) - 19723⌋ = 274 := by norm_num
  have hdh : days_held 19723 19997 = 274 := by
    unfold days_held
    rw [hfl]
    decide
  refine ⟨hp, ?_, hdh, by norm_num [single_dividend], ?_⟩
  · rw [hp, hexp]
  · intro premium netDebit
    unfold holdScenario
    rw [hp, hexp, hdh]
    unfold scenario single_dividend
    norm_num
    ring

/-- C7: every evaluation row, including what-if rows, meets the criteria
exactly when option_premium exceeds 0 and the hold scenario's total and
annualized percentages both exceed 10. -/
theorem C7_meets_criteria_iff
    (shares stock_price strike bid ask today exp singleDiv : ℚ) (proj : List ℚ)
    (wsp wstrike wopt wexp : ℚ) (wproj : List ℚ) :
    (meet_criteria (mkEvaluationRow shares stock_price strike bid ask today exp proj singleDiv) =
        true ↔
      0 < (mkEvaluationRow shares stock_price strike bid ask today exp proj
        singleDiv).option_premium ∧
      10 < (mkEvaluationRow shares stock_price strike bid ask today exp proj
        singleDiv).hold.total_return_pct ∧
      10 < (mkEvaluationRow shares stock_price strike bid ask today exp proj
        singleDiv).hold.annualized_return_pct) ∧
    (whatif_meets_criteria (mkWhatifRow shares wsp wstrike wopt today wexp wproj singleDiv) =
        true ↔
      0 < (mkWhatifRow shares wsp wstrike wopt today wexp wproj singleDiv).option_premium ∧
      10 < (mkWhatifRow shares wsp wstrike wopt today wexp wproj singleDiv).hold_pct ∧
      10 < (mkWhatifRow shares wsp wstrike wopt today wexp wproj singleDiv).hold_ann) := by
  constructor
  · simp [meet_criteria, and_assoc]
  · simp [whatif_meets_criteria, and_assoc]

/-- C9: days held is the day difference floored at 1 in both the main loop
and the what-if calculator, hence at least 1, never 0, and exactly 1 when
the expiration equals the purchase date, so the annualized-return division
never divides by zero. -/
theorem C9_days_held_floor (today exp : ℚ) :
    days_held today exp = max ⌊exp - today⌋ 1 ∧
    whatif_days_held today exp = max ⌊exp - today⌋ 1 ∧
    1 ≤ days_held today exp ∧ 1 ≤ whatif_days_held today exp ∧
    days_held today exp ≠ 0 ∧ whatif_days_held today exp ≠ 0 ∧
    days_held today today = 1 ∧ whatif_days_held today today = 1 := by
  unfold days_held whatif_days_held
  have h1 : (1 : Int) ≤ max ⌊exp - today⌋ 1 := le_max_right _ _
  refine ⟨rfl, rfl, h1, h1, by omega, by omega, ?_, ?_⟩
  · simp
  · simp

/-- C10: the screener keeps exactly the expirations whose day distance from
the purchase date lies in the closed interval from 180 to 540, and exactly
the strikes in the closed interval from 0.6 to 0.9 times the stock price;
everything outside either window is excluded. -/
theorem C10_screener_windows (today stock_price e s : ℚ) (available strikes : List ℚ) :
    (e ∈ filtered_exps today available ↔
      e ∈ available ∧ 180 ≤ ⌊e - today⌋ ∧ ⌊e - today⌋ ≤ 540) ∧
    (s ∈ strike_filter stock_price strikes ↔
      s ∈ strikes ∧ stock_price * (6 / 10) ≤ s ∧ s ≤ stock_price * (9 / 10)) := by
  constructor
  · unfold filtered_exps
    rw [List.mem_filter]
    norm_num
  · unfold strike_filter
    rw [List.mem_filter]
    norm_num

/-- C8: with strictly increasing historical dividend dates the estimator's
average interval is strictly positive in every branch, and the projection
while-loop terminates: past the sufficient iteration bound, further
iterations change nothing because the running date has exceeded the
horizon. -/
theorem C8_projection_terminates (recentDates : List Int) (freq : Nat) (lk horizon : ℚ)
    (h : recentDates.Pairwise (· < ·)) :
    0 < avg_days_between recentDates freq ∧
    ∀ extra : Nat,
      projectAux (avg_days_between recentDates freq) horizon
          (projFuel (avg_days_between recentDates freq) horizon
            (lk + avg_days_between recentDates freq) + extra)
          (lk + avg_days_between recentDates freq) =
        projected_div_dates lk (avg_days_between recentDates freq) horizon := by
  have havg := avg_days_between_pos freq h
  refine ⟨havg, ?_⟩
  intro extra
  unfold projected_div_dates
  apply projectAux_fuel_congr havg
  · have hs := projFuel_suff havg horizon (lk + avg_days_between recentDates freq)
    have hnn : (0 : ℚ) ≤ (extra : ℚ) * avg_days_between recentDates freq := by positivity
    push_cast
    linarith
  · exact projFuel_suff havg horizon _

/-- Witness for C8 at the concrete quarterly history. -/
theorem C8_projection_terminates_witness :
    0 < avg_days_between [0, 91] 4 ∧
    ∀ extra : Nat,
      projectAux (avg_days_between [0, 91] 4) 274
          (projFuel (avg_days_between [0, 91] 4) 274 (0 + avg_days_between [0, 91] 4) + extra)
          (0 + avg_days_between [0, 91] 4) =
        projected_div_dates 0 (avg_days_between [0, 91] 4) 274 :=
  C8_projection_terminates [0, 91] 4 0 274 (by decide)

end BuyWrite
